import Mathlib

set_option maxHeartbeats 1000000

/- Shallow embedding of drb/docker.py from vinted/docker-rpm-builder: a fluent
   builder for docker pull / docker run command lines.  User strings are quoted
   with pipes.quote at the moment they are stored; terminal operations render a
   single shell command string and hand it to a spawn oracle that models
   Popen(..., shell=True).communicate() / poll(). -/

/- ===================== pipes.quote (Python 2 stdlib) ===================== -/

/-- The characters pipes.quote leaves unquoted: the Python module constant
_safechars, i.e. string.ascii_letters + string.digits + the punctuation below. -/
def _safechars : List Char :=
  "abcdefghijklmnopqrstuvwxyzABCDEFGHIJKLMNOPQRSTUVWXYZ0123456789@%_-+=:,./".data

def isSafeChar (c : Char) : Bool := _safechars.contains c

/-- One character of the replacement done by pipes.quote: a single quote becomes
the five-character sequence quote, double-quote, quote, double-quote, quote
(closing the single-quoted region, emitting a double-quoted single quote,
reopening the region); every other character is kept as is. -/
def quoteChar (c : Char) : List Char :=
  if c = '\'' then ['\'', '"', '\'', '"', '\''] else [c]

/-- The replace step of pipes.quote applied to a whole character list. -/
def quoteReplaced : List Char → List Char
  | [] => []
  | c :: cs => quoteChar c ++ quoteReplaced cs

/-- Python 2 pipes.quote: strings made only of safe characters pass through
unchanged (except the empty string, which becomes a pair of single quotes);
any other string is wrapped in single quotes with embedded single quotes
replaced by quoteChar. -/
def pipes.quote (file : String) : String :=
  if file.data.all isSafeChar then
    if file = "" then "''" else file
  else
    String.mk ('\'' :: (quoteReplaced file.data ++ ['\'']))

/- ===================== Python str.strip ===================== -/

/-- Python whitespace as used by str.strip: space, tab, newline, carriage
return, vertical tab, form feed. -/
def pyIsSpace (c : Char) : Bool :=
  c == ' ' || c == '\t' || c == '\n' || c == '\r' || c == '\x0b' || c == '\x0c'

/-- Python str.strip(): drop leading and trailing whitespace. -/
def pyStrip (s : String) : String :=
  String.mk (((s.data.dropWhile pyIsSpace).reverse.dropWhile pyIsSpace).reverse)

/- ===================== shell tokenization model ===================== -/

/-- Quoting mode of the shell field-splitting state machine: outside quotes,
outside quotes after a backslash, inside single quotes, inside double quotes,
and inside double quotes after a backslash. -/
inductive QMode where
  | norm
  | normEsc
  | single
  | double
  | doubleEsc
deriving DecidableEq

/-- State of the shell field splitter: quoting mode, the word accumulated so
far (none when no word has started), and the completed words. -/
structure SplitState where
  mode : QMode
  cur : Option (List Char)
  acc : List String
deriving DecidableEq

def flushCur : Option (List Char) → List String
  | none => []
  | some w => [String.mk w]

/-- One character of POSIX-style shell field splitting.  Unquoted space, tab
and newline end the current word; single quotes protect everything up to the
next single quote; double quotes protect everything except a backslash before
dollar, double quote, backslash or backquote; an unquoted backslash protects
the next character.  Expansion is not performed: this models token boundaries
only, which is what the specification appeals to. -/
def step (st : SplitState) (c : Char) : SplitState :=
  match st.mode with
  | QMode.norm =>
    if c = ' ' ∨ c = '\t' ∨ c = '\n' then
      SplitState.mk QMode.norm none (st.acc ++ flushCur st.cur)
    else if c = '\'' then
      SplitState.mk QMode.single (some (st.cur.getD [])) st.acc
    else if c = '"' then
      SplitState.mk QMode.double (some (st.cur.getD [])) st.acc
    else if c = '\\' then
      SplitState.mk QMode.normEsc st.cur st.acc
    else
      SplitState.mk QMode.norm (some (st.cur.getD [] ++ [c])) st.acc
  | QMode.normEsc =>
      SplitState.mk QMode.norm (some (st.cur.getD [] ++ [c])) st.acc
  | QMode.single =>
    if c = '\'' then
      SplitState.mk QMode.norm st.cur st.acc
    else
      SplitState.mk QMode.single (some (st.cur.getD [] ++ [c])) st.acc
  | QMode.double =>
    if c = '"' then
      SplitState.mk QMode.norm st.cur st.acc
    else if c = '\\' then
      SplitState.mk QMode.doubleEsc st.cur st.acc
    else
      SplitState.mk QMode.double (some (st.cur.getD [] ++ [c])) st.acc
  | QMode.doubleEsc =>
    if c = '$' ∨ c = '"' ∨ c = '\\' ∨ c = Char.ofNat 96 then
      SplitState.mk QMode.double (some (st.cur.getD [] ++ [c])) st.acc
    else if c = '\n' then
      SplitState.mk QMode.double st.cur st.acc
    else
      SplitState.mk QMode.double (some (st.cur.getD [] ++ ['\\', c])) st.acc

def initState : SplitState := SplitState.mk QMode.norm none []

/-- Finish splitting: fail on an unterminated quote or trailing backslash,
otherwise flush the pending word. -/
def finishSplit : SplitState → Option (List String)
  | SplitState.mk QMode.norm cur acc => some (acc ++ flushCur cur)
  | _ => none

def shellSplitL (cs : List Char) : Option (List String) :=
  finishSplit (cs.foldl step initState)

/-- Split a command line into its shell tokens; none on a parse error. -/
def shellSplit (s : String) : Option (List String) :=
  shellSplitL s.data

/-- A string that the shell reads back as exactly one token.  This is the
semantic content of being an already-quoted string. -/
def IsSingleToken (s : String) : Prop := ∃ w, shellSplit s = some [w]

/- ===================== dynamic values and errors ===================== -/

/-- A Python value as far as the isinstance(·, basestring) checks in env are
concerned: either a string-like value or anything else. -/
inductive PyValue where
  | str (s : String)
  | other
deriving DecidableEq

def PyValue.isBasestring : PyValue → Bool
  | PyValue.str _ => true
  | PyValue.other => false

/-- The errors of the builder.  spawnedProcessError embeds the
SpawnedProcessError class of docker.py (the ProcessExecutionError of the
specification).  preconditionFailed is the error of the precondition helper
from the module drb.dbc, which is not part of the sources; it is modelled from
the spec (error kind PreconditionFailed).  invalidArgument is modelled from the
spec only (error kind InvalidArgument); nothing in docker.py produces it. -/
inductive DrbError where
  | preconditionFailed (msg : String)
  | invalidArgument (msg : String)
  | spawnedProcessError (returncode : Int) (cmd : String) (output : String) (error : String)
deriving DecidableEq

/-- Modelled from the spec: the precondition helper of the missing module
drb.dbc checks a condition and, when it fails, raises the error kind
PreconditionFailed, "raised synchronously at the call that violates the
precondition; no partial execution occurs". -/
def precondition (cond : Bool) (msg : String) : Except DrbError Unit :=
  if cond then Except.ok () else Except.error (DrbError.preconditionFailed msg)

/- ===================== filesystem and process oracles ===================== -/

/-- Abstraction of the filesystem primitives used by docker.py (spec: external
interfaces): os.access with read+execute or read mode, os.path.isdir,
os.path.isfile and os.path.abspath. -/
structure FileSystem where
  accessRX : String → Bool
  accessR : String → Bool
  isdir : String → Bool
  isfile : String → Bool
  abspath : String → String

/-- posixpath.isabs: a path is absolute when it starts with a slash. -/
def isabs (p : String) : Bool :=
  match p.data with
  | [] => false
  | c :: _ => c == '/'

/-- Result of one finished subprocess, as observed through
Popen.communicate() and Popen.poll(): captured stdout, captured stderr and
the exit status. -/
structure ProcResult where
  output : String
  error : String
  retcode : Int
deriving DecidableEq

/- ===================== the Docker builder ===================== -/

/-- The instance state of class Docker.  The warning in __init__ applies:
whatever is stored here is later passed to a shell and must already be
quoted when set. -/
structure Docker where
  _docker_exec : String
  _options : List String
  _image : Option String
  _cmd_and_args : Option (List String)
deriving DecidableEq

/-- Docker.__init__: quote the executable, start with no options, no image and
no command tokens. -/
def Docker.new (docker_exec : String) : Docker :=
  Docker.mk (pipes.quote docker_exec) [] none none

/-- Helper _ordered_unique with its internal seen set made explicit. -/
def _ordered_unique_aux (s : List String) : List String → List String
  | [] => []
  | item :: rest =>
    if item ∈ s then _ordered_unique_aux s rest
    else item :: _ordered_unique_aux (item :: s) rest

/-- _ordered_unique: ordered, unique elements from the input, keeping the
first occurrence of each element. -/
def _ordered_unique (input_iterable : List String) : List String :=
  _ordered_unique_aux [] input_iterable

/-- Modelled from the spec: "the accumulated option list is filtered to first
occurrence of each distinct string, preserving original insertion order".
Each element is kept and every later copy of it is removed.  This is the
spec-side description to compare _ordered_unique against. -/
def firstOccurrences : List String → List String
  | [] => []
  | x :: xs => x :: firstOccurrences (xs.filter (fun y => y != x))
termination_by l => l.length
decreasing_by
  simp only [List.length_cons]
  exact Nat.lt_succ_of_le (List.length_filter_le _ _)

/-- The command string rendered by do_pull once the image is known. -/
def Docker.pull_fullcmd (d : Docker) (image : String) : String :=
  d._docker_exec ++ " pull " ++ image

/-- Docker.do_pull: require an image, render the pull command, spawn it, and
either surface the failure as a SpawnedProcessError or return stripped
stdout (also on an ignored failure). -/
def Docker.do_pull (spawn : String → ProcResult) (d : Docker)
    (ignore_errors : Bool) : Except DrbError String :=
  match d._image with
  | none => Except.error (DrbError.preconditionFailed "image must be set")
  | some image =>
    let fullcmd := d.pull_fullcmd image
    let r := spawn fullcmd
    if r.retcode ≠ 0 ∧ ignore_errors = false then
      Except.error (DrbError.spawnedProcessError r.retcode fullcmd r.output r.error)
    else
      Except.ok (pyStrip r.output)

/-- The command string rendered by _run once image and cmd_and_args are
known: executable, the literal run, the deduplicated space-joined options,
the image and the space-joined command tokens. -/
def Docker.run_fullcmd (d : Docker) (image : String) (caa : List String) : String :=
  d._docker_exec ++ " run " ++ String.intercalate " " (_ordered_unique d._options)
    ++ " " ++ image ++ " " ++ String.intercalate " " caa

/-- Docker._run with captured output: require image and cmd_and_args, render
the run command, spawn it, raise SpawnedProcessError on any non-zero exit,
otherwise return the captured stdout. -/
def Docker._run (spawn : String → ProcResult) (d : Docker) : Except DrbError String :=
  match d._image with
  | none => Except.error (DrbError.preconditionFailed "image must be set")
  | some image =>
    match d._cmd_and_args with
    | none => Except.error (DrbError.preconditionFailed "cmd_and_args must be set")
    | some caa =>
      let fullcmd := d.run_fullcmd image caa
      let r := spawn fullcmd
      if r.retcode ≠ 0 then
        Except.error (DrbError.spawnedProcessError r.retcode fullcmd r.output r.error)
      else
        Except.ok r.output

/-- Docker.do_run: launch the command and return its stripped stdout. -/
def Docker.do_run (spawn : String → ProcResult) (d : Docker) : Except DrbError String :=
  (Docker._run spawn d).map pyStrip

/-- Docker.additional_options: extend the option list with each option
quoted. -/
def Docker.additional_options (d : Docker) (options : List String) : Docker :=
  Docker.mk d._docker_exec (d._options ++ options.map pipes.quote) d._image d._cmd_and_args

/-- Docker.env: check that key and value are string-like (the two
precondition(isinstance(..., basestring)) calls, key first), then append one
option assembling the quoted key and quoted value. -/
def Docker.env (d : Docker) (key value : PyValue) : Except DrbError Docker :=
  match key, value with
  | PyValue.str k, PyValue.str v =>
    Except.ok (Docker.mk d._docker_exec
      (d._options ++ ["--env=" ++ pipes.quote k ++ "=" ++ pipes.quote v])
      d._image d._cmd_and_args)
  | PyValue.other, _ =>
    Except.error (DrbError.preconditionFailed "key must be str or unicode")
  | _, PyValue.other =>
    Except.error (DrbError.preconditionFailed "value must be str or unicode")

/-- Docker.image: store the quoted image, replacing any previous one. -/
def Docker.image (d : Docker) (image : String) : Docker :=
  Docker.mk d._docker_exec d._options (some (pipes.quote image)) d._cmd_and_args

/-- Docker.cmd_and_args: store the quoted tokens, replacing any previous
ones. -/
def Docker.cmd_and_args (d : Docker) (caa : List String) : Docker :=
  Docker.mk d._docker_exec d._options d._image (some (caa.map pipes.quote))

/-- Docker.rm: append the rm flag. -/
def Docker.rm (d : Docker) : Docker :=
  Docker.mk d._docker_exec (d._options ++ ["--rm"]) d._image d._cmd_and_args

/-- Docker.interactive_and_tty: append the interactive and tty flags. -/
def Docker.interactive_and_tty (d : Docker) : Docker :=
  Docker.mk d._docker_exec (d._options ++ ["--interactive", "--tty"])
    d._image d._cmd_and_args

/-- Docker.bindmount_dir: check the host directory is readable and
executable and is a directory and the guest path is absolute, then append one
volume option built from the quoted absolute host path and quoted guest
path. -/
def Docker.bindmount_dir (fs : FileSystem) (d : Docker)
    (host_dir guest_dir : String) (read_only : Bool) : Except DrbError Docker := do
  let _ ← precondition (fs.accessRX host_dir) "host_dir must be readable and executable"
  let _ ← precondition (fs.isdir host_dir) "host_dir must be a directory"
  let _ ← precondition (isabs guest_dir) "guest_dir must be absolute"
  Except.ok (Docker.mk d._docker_exec
    (d._options ++ ["--volume=" ++ pipes.quote (fs.abspath host_dir) ++ ":"
      ++ pipes.quote guest_dir ++ ":z" ++ (if read_only then ",ro" else "")])
    d._image d._cmd_and_args)

/-- Docker.bindmount_file: as bindmount_dir but checking read access only and
that the host path is a regular file. -/
def Docker.bindmount_file (fs : FileSystem) (d : Docker)
    (host_file guest_file : String) (read_only : Bool) : Except DrbError Docker := do
  let _ ← precondition (fs.accessR host_file) "host_file must be readable and executable"
  let _ ← precondition (fs.isfile host_file) "host_file must be a file"
  let _ ← precondition (isabs guest_file) "guest_file must be absolute"
  Except.ok (Docker.mk d._docker_exec
    (d._options ++ ["--volume=" ++ pipes.quote (fs.abspath host_file) ++ ":"
      ++ pipes.quote guest_file ++ ":z" ++ (if read_only then ",ro" else "")])
    d._image d._cmd_and_args)

/-- Docker.privileged: append the privileged flag. -/
def Docker.privileged (d : Docker) : Docker :=
  Docker.mk d._docker_exec (d._options ++ ["--privileged"]) d._image d._cmd_and_args

/-- Docker.tmpfs: check the guest path is absolute, then append one tmpfs
option with the quoted guest path. -/
def Docker.tmpfs (d : Docker) (guest_dir : String) : Except DrbError Docker := do
  let _ ← precondition (isabs guest_dir) "guest_dir must be absolute"
  Except.ok (Docker.mk d._docker_exec
    (d._options ++ ["--tmpfs=" ++ pipes.quote guest_dir]) d._image d._cmd_and_args)

/-- Docker.workdir: check the guest path is absolute, then append one workdir
option with the quoted guest path. -/
def Docker.workdir (d : Docker) (guest_dir : String) : Except DrbError Docker := do
  let _ ← precondition (isabs guest_dir) "guest_dir must be absolute"
  Except.ok (Docker.mk d._docker_exec
    (d._options ++ ["--workdir=" ++ pipes.quote guest_dir]) d._image d._cmd_and_args)

/-- Docker.init: append the init flag. -/
def Docker.dockerInit (d : Docker) : Docker :=
  Docker.mk d._docker_exec (d._options ++ ["--init"]) d._image d._cmd_and_args

/- ===================== configuration call sequences ===================== -/

/-- One configuration call on the builder, with its arguments. -/
inductive ConfigOp where
  | image (img : String)
  | cmd_and_args (caa : List String)
  | additional_options (opts : List String)
  | env (key value : PyValue)
  | rm
  | interactive_and_tty
  | bindmount_dir (host_dir guest_dir : String) (read_only : Bool)
  | bindmount_file (host_file guest_file : String) (read_only : Bool)
  | privileged
  | tmpfs (guest_dir : String)
  | workdir (guest_dir : String)
  | dockerInit

/-- Apply one configuration call to the builder state. -/
def applyOp (fs : FileSystem) (d : Docker) : ConfigOp → Except DrbError Docker
  | ConfigOp.image img => Except.ok (d.image img)
  | ConfigOp.cmd_and_args caa => Except.ok (d.cmd_and_args caa)
  | ConfigOp.additional_options opts => Except.ok (d.additional_options opts)
  | ConfigOp.env k v => d.env k v
  | ConfigOp.rm => Except.ok d.rm
  | ConfigOp.interactive_and_tty => Except.ok d.interactive_and_tty
  | ConfigOp.bindmount_dir h g ro => Docker.bindmount_dir fs d h g ro
  | ConfigOp.bindmount_file h g ro => Docker.bindmount_file fs d h g ro
  | ConfigOp.privileged => Except.ok d.privileged
  | ConfigOp.tmpfs g => d.tmpfs g
  | ConfigOp.workdir g => d.workdir g
  | ConfigOp.dockerInit => Except.ok d.dockerInit

/-- Apply a sequence of configuration calls, stopping at the first error. -/
def applyOps (fs : FileSystem) : List ConfigOp → Docker → Except DrbError Docker
  | [], d => Except.ok d
  | op :: ops, d =>
    match applyOp fs d op with
    | Except.error e => Except.error e
    | Except.ok d' => applyOps fs ops d'

/-- Every string stored in the builder state is a single shell token, i.e. is
already quoted: the executable, each accumulated option, the image when set
and each command token when set. -/
def GoodState (d : Docker) : Prop :=
  IsSingleToken d._docker_exec ∧
  (∀ o ∈ d._options, IsSingleToken o) ∧
  (∀ i, d._image = some i → IsSingleToken i) ∧
  (∀ l, d._cmd_and_args = some l → ∀ t ∈ l, IsSingleToken t)

/-- Observation helper: the computation failed with a PreconditionFailed. -/
def failsPrecondition (r : Except DrbError Docker) : Bool :=
  match r with
  | Except.error (DrbError.preconditionFailed _) => true
  | _ => false

/-- Observation helper: the computation failed with an InvalidArgument. -/
def failsInvalidArgument (r : Except DrbError Docker) : Bool :=
  match r with
  | Except.error (DrbError.invalidArgument _) => true
  | _ => false

/-- The characters cs, fed to the field splitter in normal mode with a word
already open, extend that word by exactly w and change nothing else. -/
def ChunkTo (cs w : List Char) : Prop :=
  ∀ w₀ acc, List.foldl step (SplitState.mk QMode.norm (some w₀) acc) cs
      = SplitState.mk QMode.norm (some (w₀ ++ w)) acc

/- ===================== theorems: the splitter on quoted strings ===================== -/

theorem string_data_append (a b : String) : (a ++ b).data = a.data ++ b.data := by
  cases a
  cases b
  rfl

theorem string_mk_data (s : String) : String.mk s.data = s := rfl

theorem safe_not_space {c : Char} (h : isSafeChar c = true) :
    ¬(c = ' ' ∨ c = '\t' ∨ c = '\n') := by
  rintro (rfl | rfl | rfl) <;> exact absurd h (by decide)

theorem safe_not_squote {c : Char} (h : isSafeChar c = true) : ¬c = '\'' := by
  rintro rfl
  exact absurd h (by decide)

theorem safe_not_dquote {c : Char} (h : isSafeChar c = true) : ¬c = '"' := by
  rintro rfl
  exact absurd h (by decide)

theorem safe_not_backslash {c : Char} (h : isSafeChar c = true) : ¬c = '\\' := by
  rintro rfl
  exact absurd h (by decide)

theorem step_norm_safe {c : Char} (h : isSafeChar c = true)
    (cur : Option (List Char)) (acc : List String) :
    step (SplitState.mk QMode.norm cur acc) c
      = SplitState.mk QMode.norm (some (cur.getD [] ++ [c])) acc := by
  simp only [step]
  rw [if_neg (safe_not_space h), if_neg (safe_not_squote h),
    if_neg (safe_not_dquote h), if_neg (safe_not_backslash h)]

theorem step_norm_squote (cur : Option (List Char)) (acc : List String) :
    step (SplitState.mk QMode.norm cur acc) '\''
      = SplitState.mk QMode.single (some (cur.getD [])) acc := rfl

theorem step_norm_dquote (cur : Option (List Char)) (acc : List String) :
    step (SplitState.mk QMode.norm cur acc) '"'
      = SplitState.mk QMode.double (some (cur.getD [])) acc := rfl

theorem step_single_close (cur : Option (List Char)) (acc : List String) :
    step (SplitState.mk QMode.single cur acc) '\''
      = SplitState.mk QMode.norm cur acc := rfl

theorem step_single_other {c : Char} (h : ¬c = '\'') (w : List Char) (acc : List String) :
    step (SplitState.mk QMode.single (some w) acc) c
      = SplitState.mk QMode.single (some (w ++ [c])) acc := by
  simp only [step, if_neg h, Option.getD_some]

theorem step_double_squote (w : List Char) (acc : List String) :
    step (SplitState.mk QMode.double (some w) acc) '\''
      = SplitState.mk QMode.double (some (w ++ ['\''])) acc := rfl

theorem step_double_close (cur : Option (List Char)) (acc : List String) :
    step (SplitState.mk QMode.double cur acc) '"'
      = SplitState.mk QMode.norm cur acc := rfl

theorem quoteReplaced_cons_squote (cs : List Char) :
    quoteReplaced ('\'' :: cs) = '\'' :: '"' :: '\'' :: '"' :: '\'' :: quoteReplaced cs := rfl

theorem quoteReplaced_cons_other {c : Char} (h : ¬c = '\'') (cs : List Char) :
    quoteReplaced (c :: cs) = c :: quoteReplaced cs := by
  simp only [quoteReplaced, quoteChar, if_neg h, List.cons_append, List.nil_append]

/-- Inside single quotes, the replaced body of pipes.quote appends exactly the
original characters to the open word and stays inside single quotes. -/
theorem fold_single_quoteReplaced (cs : List Char) :
    ∀ w acc, List.foldl step (SplitState.mk QMode.single (some w) acc) (quoteReplaced cs)
      = SplitState.mk QMode.single (some (w ++ cs)) acc := by
  induction cs with
  | nil =>
    intro w acc
    simp [quoteReplaced]
  | cons c cs ih =>
    intro w acc
    by_cases hc : c = '\''
    · subst hc
      rw [quoteReplaced_cons_squote]
      simp only [List.foldl_cons, step_single_close, step_norm_dquote, Option.getD_some,
        step_double_squote, step_double_close, step_norm_squote]
      rw [ih (w ++ ['\'']) acc]
      simp
    · rw [quoteReplaced_cons_other hc]
      simp only [List.foldl_cons, step_single_other hc]
      rw [ih (w ++ [c]) acc]
      simp

theorem chunkTo_append {a wa b wb : List Char} (ha : ChunkTo a wa) (hb : ChunkTo b wb) :
    ChunkTo (a ++ b) (wa ++ wb) := by
  intro w₀ acc
  rw [List.foldl_append, ha, hb, List.append_assoc]

theorem chunkTo_safe {cs : List Char} (h : cs.all isSafeChar = true) : ChunkTo cs cs := by
  induction cs with
  | nil =>
    intro w₀ acc
    simp
  | cons c cs ih =>
    simp only [List.all_cons, Bool.and_eq_true] at h
    intro w₀ acc
    simp only [List.foldl_cons, step_norm_safe h.1, Option.getD_some]
    rw [ih h.2 (w₀ ++ [c]) acc]
    simp

/-- The output of pipes.quote, appended to an open word, contributes exactly
the original characters. -/
theorem chunkTo_quote (s : String) : ChunkTo (pipes.quote s).data s.data := by
  unfold pipes.quote
  by_cases hsafe : s.data.all isSafeChar = true
  · rw [if_pos hsafe]
    by_cases hempty : s = ""
    · rw [if_pos hempty]
      subst hempty
      intro w₀ acc
      simp only [List.foldl_cons, List.foldl_nil, step_norm_squote, Option.getD_some,
        step_single_close]
      simp
    · rw [if_neg hempty]
      exact chunkTo_safe hsafe
  · rw [if_neg hsafe]
    intro w₀ acc
    simp only [List.cons_append, List.foldl_cons, step_norm_squote, Option.getD_some]
    rw [List.foldl_append, fold_single_quoteReplaced]
    simp only [List.foldl_cons, List.foldl_nil, step_single_close]

/-- Any string whose first character is safe and whose remaining characters
form a chunk splits into exactly one token. -/
theorem isSingleToken_append_chunk (p rest : String) (hp : p.data.all isSafeChar = true)
    (hpne : ¬p = "") {w : List Char} (hrest : ChunkTo rest.data w) :
    IsSingleToken (p ++ rest) := by
  obtain ⟨pl⟩ := p
  cases pl with
  | nil => exact absurd rfl hpne
  | cons c cs =>
    simp only [List.all_cons, Bool.and_eq_true] at hp
    refine ⟨String.mk (c :: (cs ++ w)), ?_⟩
    unfold shellSplit shellSplitL
    rw [string_data_append]
    show finishSplit (List.foldl step initState ((c :: cs) ++ rest.data)) = _
    rw [List.cons_append, List.foldl_cons]
    rw [show step initState c = SplitState.mk QMode.norm (some [c]) [] from by
      rw [show initState = SplitState.mk QMode.norm none [] from rfl, step_norm_safe hp.1]
      rfl]
    rw [List.foldl_append, chunkTo_safe hp.2, hrest]
    simp [finishSplit, flushCur]

/-- pipes.quote round-trips through shell field splitting: the quoted string
is read back as exactly the original string, as a single token. -/
theorem shellSplit_quote (s : String) : shellSplit (pipes.quote s) = some [s] := by
  unfold pipes.quote
  by_cases hsafe : s.data.all isSafeChar = true
  · rw [if_pos hsafe]
    by_cases hempty : s = ""
    · rw [if_pos hempty]
      subst hempty
      decide
    · rw [if_neg hempty]
      obtain ⟨sl⟩ := s
      cases sl with
      | nil => exact absurd rfl hempty
      | cons c cs =>
        simp only [List.all_cons, Bool.and_eq_true] at hsafe
        unfold shellSplit shellSplitL
        show finishSplit (List.foldl step initState (c :: cs)) = _
        rw [List.foldl_cons]
        rw [show step initState c = SplitState.mk QMode.norm (some [c]) [] from by
          rw [show initState = SplitState.mk QMode.norm none [] from rfl, step_norm_safe hsafe.1]
          rfl]
        rw [chunkTo_safe hsafe.2]
        simp [finishSplit, flushCur]
  · rw [if_neg hsafe]
    unfold shellSplit shellSplitL
    show finishSplit (List.foldl step initState ('\'' :: (quoteReplaced s.data ++ ['\'']))) = _
    rw [List.foldl_cons]
    rw [show step initState '\'' = SplitState.mk QMode.single (some []) [] from rfl]
    rw [List.foldl_append, fold_single_quoteReplaced]
    simp only [List.nil_append, List.foldl_cons, List.foldl_nil, step_single_close]
    simp [finishSplit, flushCur, string_mk_data]

/- ===================== theorems: stored strings are single tokens ===================== -/

theorem string_ext {a b : String} (h : a.data = b.data) : a = b := by
  cases a
  cases b
  exact congrArg String.mk h

theorem string_append_assoc (a b c : String) : a ++ b ++ c = a ++ (b ++ c) := by
  refine string_ext ?_
  simp [string_data_append]

theorem isSingleToken_quote (s : String) : IsSingleToken (pipes.quote s) :=
  ⟨s, shellSplit_quote s⟩

theorem isSingleToken_env_opt (k v : String) :
    IsSingleToken ("--env=" ++ pipes.quote k ++ "=" ++ pipes.quote v) := by
  have hrest : ChunkTo (pipes.quote k ++ "=" ++ pipes.quote v).data
      (k.data ++ "=".data ++ v.data) := by
    rw [string_data_append, string_data_append]
    exact chunkTo_append (chunkTo_append (chunkTo_quote k) (chunkTo_safe (by decide)))
      (chunkTo_quote v)
  have h := isSingleToken_append_chunk "--env=" (pipes.quote k ++ "=" ++ pipes.quote v)
    (by decide) (by decide) hrest
  simpa [string_append_assoc] using h

theorem isSingleToken_volume_opt (a g : String) (ro : Bool) :
    IsSingleToken ("--volume=" ++ pipes.quote a ++ ":" ++ pipes.quote g ++ ":z"
      ++ (if ro then ",ro" else "")) := by
  have hro : ChunkTo (if ro then (",ro" : String) else "").data
      (if ro then (",ro" : String) else "").data := by
    cases ro <;> exact chunkTo_safe (by decide)
  have hrest : ChunkTo (pipes.quote a ++ ":" ++ pipes.quote g ++ ":z"
      ++ (if ro then "," ++ "ro" else "")).data
      (a.data ++ ":".data ++ g.data ++ ":z".data
        ++ (if ro then (",ro" : String) else "").data) := by
    rw [show (if ro then ("," ++ "ro" : String) else "") = (if ro then (",ro" : String) else "")
      from by cases ro <;> rfl]
    rw [string_data_append, string_data_append, string_data_append]
    exact chunkTo_append (chunkTo_append (chunkTo_append
      (chunkTo_append (chunkTo_quote a) (chunkTo_safe (by decide)))
      (chunkTo_quote g)) (chunkTo_safe (by decide))) hro
  have h := isSingleToken_append_chunk "--volume="
    (pipes.quote a ++ ":" ++ pipes.quote g ++ ":z" ++ (if ro then "," ++ "ro" else ""))
    (by decide) (by decide) hrest
  have heq : ("--volume=" : String) ++ (pipes.quote a ++ ":" ++ pipes.quote g ++ ":z"
      ++ (if ro then "," ++ "ro" else ""))
      = "--volume=" ++ pipes.quote a ++ ":" ++ pipes.quote g ++ ":z"
        ++ (if ro then ",ro" else "") := by
    cases ro <;> simp [string_append_assoc]
  rwa [heq] at h

theorem isSingleToken_tmpfs_opt (g : String) :
    IsSingleToken ("--tmpfs=" ++ pipes.quote g) :=
  isSingleToken_append_chunk "--tmpfs=" (pipes.quote g) (by decide) (by decide)
    (chunkTo_quote g)

theorem isSingleToken_workdir_opt (g : String) :
    IsSingleToken ("--workdir=" ++ pipes.quote g) :=
  isSingleToken_append_chunk "--workdir=" (pipes.quote g) (by decide) (by decide)
    (chunkTo_quote g)

theorem goodState_new (e : String) : GoodState (Docker.new e) := by
  refine ⟨⟨e, shellSplit_quote e⟩, ?_, ?_, ?_⟩ <;> simp [Docker.new]

theorem goodState_mk_options {d : Docker} (hg : GoodState d) (new : List String)
    (hnew : ∀ o ∈ new, IsSingleToken o) :
    GoodState (Docker.mk d._docker_exec (d._options ++ new) d._image d._cmd_and_args) := by
  obtain ⟨h1, h2, h3, h4⟩ := hg
  refine ⟨h1, ?_, h3, h4⟩
  intro o ho
  rcases List.mem_append.mp ho with h | h
  · exact h2 o h
  · exact hnew o h

theorem goodState_applyOp {fs : FileSystem} {d d' : Docker} {op : ConfigOp}
    (hg : GoodState d) (h : applyOp fs d op = Except.ok d') : GoodState d' := by
  obtain ⟨h1, h2, h3, h4⟩ := hg
  cases op with
  | image img =>
    simp only [applyOp, Except.ok.injEq] at h
    subst h
    refine ⟨h1, h2, ?_, h4⟩
    intro i hi
    have hi' : some (pipes.quote img) = some i := hi
    injection hi' with hh
    rw [← hh]
    exact isSingleToken_quote img
  | cmd_and_args caa =>
    simp only [applyOp, Except.ok.injEq] at h
    subst h
    refine ⟨h1, h2, h3, ?_⟩
    intro l hl
    have hl' : some (caa.map pipes.quote) = some l := hl
    injection hl' with hh
    rw [← hh]
    intro t ht
    obtain ⟨x, _, hx⟩ := List.mem_map.mp ht
    rw [← hx]
    exact isSingleToken_quote x
  | additional_options opts =>
    simp only [applyOp, Except.ok.injEq] at h
    subst h
    refine goodState_mk_options ⟨h1, h2, h3, h4⟩ _ ?_
    intro o ho
    obtain ⟨x, _, hx⟩ := List.mem_map.mp ho
    rw [← hx]
    exact isSingleToken_quote x
  | env k v =>
    cases k with
    | other => simp [applyOp, Docker.env] at h
    | str ks =>
      cases v with
      | other => simp [applyOp, Docker.env] at h
      | str vs =>
        simp only [applyOp, Docker.env, Except.ok.injEq] at h
        subst h
        refine goodState_mk_options ⟨h1, h2, h3, h4⟩ _ ?_
        intro o ho
        rw [List.mem_singleton.mp ho]
        exact isSingleToken_env_opt ks vs
  | rm =>
    simp only [applyOp, Docker.rm, Except.ok.injEq] at h
    subst h
    refine goodState_mk_options ⟨h1, h2, h3, h4⟩ _ ?_
    intro o ho
    rw [List.mem_singleton.mp ho]
    exact ⟨"--rm", by decide⟩
  | interactive_and_tty =>
    simp only [applyOp, Docker.interactive_and_tty, Except.ok.injEq] at h
    subst h
    refine goodState_mk_options ⟨h1, h2, h3, h4⟩ _ ?_
    intro o ho
    rcases List.mem_cons.mp ho with hh | hh
    · rw [hh]
      exact ⟨"--interactive", by decide⟩
    · rw [List.mem_singleton.mp hh]
      exact ⟨"--tty", by decide⟩
  | bindmount_dir hd gd ro =>
    cases hacc : fs.accessRX hd with
    | false => simp [applyOp, Docker.bindmount_dir, precondition, hacc, Bind.bind, Except.bind] at h
    | true =>
      cases hdir : fs.isdir hd with
      | false =>
        simp [applyOp, Docker.bindmount_dir, precondition, hacc, hdir, Bind.bind, Except.bind] at h
      | true =>
        cases habs : isabs gd with
        | false =>
          simp [applyOp, Docker.bindmount_dir, precondition, hacc, hdir, habs,
            Bind.bind, Except.bind] at h
        | true =>
          simp only [applyOp, Docker.bindmount_dir, precondition, hacc, hdir, habs,
            if_true, Bind.bind, Except.bind, Except.ok.injEq] at h
          subst h
          refine goodState_mk_options ⟨h1, h2, h3, h4⟩ _ ?_
          intro o ho
          rw [List.mem_singleton.mp ho]
          exact isSingleToken_volume_opt (fs.abspath hd) gd ro
  | bindmount_file hf gf ro =>
    cases hacc : fs.accessR hf with
    | false => simp [applyOp, Docker.bindmount_file, precondition, hacc, Bind.bind, Except.bind] at h
    | true =>
      cases hfile : fs.isfile hf with
      | false =>
        simp [applyOp, Docker.bindmount_file, precondition, hacc, hfile, Bind.bind, Except.bind] at h
      | true =>
        cases habs : isabs gf with
        | false =>
          simp [applyOp, Docker.bindmount_file, precondition, hacc, hfile, habs,
            Bind.bind, Except.bind] at h
        | true =>
          simp only [applyOp, Docker.bindmount_file, precondition, hacc, hfile, habs,
            if_true, Bind.bind, Except.bind, Except.ok.injEq] at h
          subst h
          refine goodState_mk_options ⟨h1, h2, h3, h4⟩ _ ?_
          intro o ho
          rw [List.mem_singleton.mp ho]
          exact isSingleToken_volume_opt (fs.abspath hf) gf ro
  | privileged =>
    simp only [applyOp, Docker.privileged, Except.ok.injEq] at h
    subst h
    refine goodState_mk_options ⟨h1, h2, h3, h4⟩ _ ?_
    intro o ho
    rw [List.mem_singleton.mp ho]
    exact ⟨"--privileged", by decide⟩
  | tmpfs gd =>
    cases habs : isabs gd with
    | false => simp [applyOp, Docker.tmpfs, precondition, habs, Bind.bind, Except.bind] at h
    | true =>
      simp only [applyOp, Docker.tmpfs, precondition, habs, if_true, Bind.bind, Except.bind,
        Except.ok.injEq] at h
      subst h
      refine goodState_mk_options ⟨h1, h2, h3, h4⟩ _ ?_
      intro o ho
      rw [List.mem_singleton.mp ho]
      exact isSingleToken_tmpfs_opt gd
  | workdir gd =>
    cases habs : isabs gd with
    | false => simp [applyOp, Docker.workdir, precondition, habs, Bind.bind, Except.bind] at h
    | true =>
      simp only [applyOp, Docker.workdir, precondition, habs, if_true, Bind.bind, Except.bind,
        Except.ok.injEq] at h
      subst h
      refine goodState_mk_options ⟨h1, h2, h3, h4⟩ _ ?_
      intro o ho
      rw [List.mem_singleton.mp ho]
      exact isSingleToken_workdir_opt gd
  | dockerInit =>
    simp only [applyOp, Docker.dockerInit, Except.ok.injEq] at h
    subst h
    refine goodState_mk_options ⟨h1, h2, h3, h4⟩ _ ?_
    intro o ho
    rw [List.mem_singleton.mp ho]
    exact ⟨"--init", by decide⟩

theorem goodState_applyOps {fs : FileSystem} {ops : List ConfigOp} {d d' : Docker}
    (hg : GoodState d) (h : applyOps fs ops d = Except.ok d') : GoodState d' := by
  induction ops generalizing d with
  | nil =>
    simp only [applyOps, Except.ok.injEq] at h
    rwa [← h]
  | cons op ops ih =>
    simp only [applyOps] at h
    cases hop : applyOp fs d op with
    | error e =>
      rw [hop] at h
      simp at h
    | ok dmid =>
      rw [hop] at h
      exact ih (goodState_applyOp hg hop) h

/-- Claim C1: every user-supplied string accepted by any configuration
operation is shell-quoted at the moment it is stored in the builder state:
after any sequence of configuration calls on a fresh builder, the stored
executable, every stored option, the stored image and every stored command
token are already-quoted strings, i.e. each parses back as exactly one shell
token. -/
theorem claim_C1_config_stores_quoted (fs : FileSystem) (docker_exec : String)
    (ops : List ConfigOp) (d' : Docker)
    (h : applyOps fs ops (Docker.new docker_exec) = Except.ok d') : GoodState d' :=
  goodState_applyOps (goodState_new docker_exec) h

theorem claim_C1_witness :
    GoodState (Docker.mk "docker" ["--rm"] (some "alpine") none) :=
  claim_C1_config_stores_quoted
    (FileSystem.mk (fun _ => true) (fun _ => true) (fun _ => true) (fun _ => true) (fun p => p))
    "docker" [ConfigOp.image "alpine", ConfigOp.rm] _ rfl

/-- Claim C4: quoting then shell-parsing round-trips: for any string passed to
a setter, parsing the quoted rendering with shell tokenization yields the
original string back as exactly one token, so no input introduces an
additional shell token or command. -/
theorem claim_C4_quote_roundtrip (s : String) : shellSplit (pipes.quote s) = some [s] :=
  shellSplit_quote s


/- ===================== theorems: option deduplication ===================== -/

theorem firstOccurrences_nil : firstOccurrences [] = [] := by
  rw [firstOccurrences.eq_def]

theorem firstOccurrences_cons (x : String) (xs : List String) :
    firstOccurrences (x :: xs)
      = x :: firstOccurrences (xs.filter (fun y => y != x)) := by
  rw [firstOccurrences.eq_def]

theorem mem_ordered_unique_aux (l : List String) :
    ∀ (s : List String) (x : String),
      x ∈ _ordered_unique_aux s l ↔ x ∈ l ∧ ¬x ∈ s := by
  induction l with
  | nil =>
    intro s x
    simp [_ordered_unique_aux]
  | cons a l ih =>
    intro s x
    by_cases ha : a ∈ s
    · simp only [_ordered_unique_aux, if_pos ha]
      rw [ih s x]
      constructor
      · rintro ⟨hx, hs⟩
        exact ⟨List.mem_cons_of_mem a hx, hs⟩
      · rintro ⟨hx, hs⟩
        rcases List.mem_cons.mp hx with rfl | hx
        · exact absurd ha hs
        · exact ⟨hx, hs⟩
    · simp only [_ordered_unique_aux, if_neg ha]
      constructor
      · intro hx
        rcases List.mem_cons.mp hx with rfl | hx
        · exact ⟨List.mem_cons_self x l, ha⟩
        · obtain ⟨h1, h2⟩ := (ih (a :: s) x).mp hx
          exact ⟨List.mem_cons_of_mem a h1,
            fun hxs => h2 (List.mem_cons_of_mem a hxs)⟩
      · rintro ⟨hx, hs⟩
        rcases List.mem_cons.mp hx with rfl | hx
        · exact List.mem_cons_self x _
        · by_cases hxa : x = a
          · subst hxa
            exact List.mem_cons_self x _
          · refine List.mem_cons_of_mem a ((ih (a :: s) x).mpr ⟨hx, ?_⟩)
            intro hxs
            rcases List.mem_cons.mp hxs with h | h
            · exact hxa h
            · exact hs h

theorem sublist_ordered_unique_aux (l : List String) :
    ∀ s, List.Sublist (_ordered_unique_aux s l) l := by
  induction l with
  | nil =>
    intro s
    simp [_ordered_unique_aux]
  | cons a l ih =>
    intro s
    by_cases ha : a ∈ s
    · simp only [_ordered_unique_aux, if_pos ha]
      exact (ih s).trans (List.sublist_cons_self a l)
    · simp only [_ordered_unique_aux, if_neg ha]
      exact List.Sublist.cons₂ a (ih (a :: s))

theorem nodup_ordered_unique_aux (l : List String) :
    ∀ s, (_ordered_unique_aux s l).Nodup := by
  induction l with
  | nil =>
    intro s
    simp [_ordered_unique_aux]
  | cons a l ih =>
    intro s
    by_cases ha : a ∈ s
    · simpa only [_ordered_unique_aux, if_pos ha] using ih s
    · simp only [_ordered_unique_aux, if_neg ha]
      refine List.Nodup.cons ?_ (ih (a :: s))
      intro hmem
      exact ((mem_ordered_unique_aux l (a :: s) a).mp hmem).2 (List.mem_cons_self a s)

theorem ordered_unique_aux_eq_firstOccurrences (l : List String) :
    ∀ s, _ordered_unique_aux s l
      = firstOccurrences (l.filter (fun y => decide (¬y ∈ s))) := by
  induction l with
  | nil =>
    intro s
    rw [List.filter_nil, firstOccurrences_nil]
    rfl
  | cons a l ih =>
    intro s
    by_cases ha : a ∈ s
    · rw [show List.filter (fun y => decide (¬y ∈ s)) (a :: l)
          = List.filter (fun y => decide (¬y ∈ s)) l from by simp [List.filter_cons, ha]]
      simp only [_ordered_unique_aux, if_pos ha]
      exact ih s
    · rw [show List.filter (fun y => decide (¬y ∈ s)) (a :: l)
          = a :: List.filter (fun y => decide (¬y ∈ s)) l from by
        simp [List.filter_cons, ha]]
      simp only [_ordered_unique_aux, if_neg ha]
      rw [firstOccurrences_cons]
      congr 1
      rw [ih (a :: s), List.filter_filter]
      rw [show (fun y => decide (¬y ∈ a :: s))
          = (fun y : String => y != a && decide (¬y ∈ s)) from by
        funext y
        by_cases hy : y ∈ s <;> by_cases hya : y = a <;>
          simp [hy, hya, List.mem_cons]]

theorem ordered_unique_eq_firstOccurrences (l : List String) :
    _ordered_unique l = firstOccurrences l := by
  have h := ordered_unique_aux_eq_firstOccurrences l []
  rw [show (fun y => decide (¬y ∈ ([] : List String))) = fun _ : String => true from
    funext fun y => by simp] at h
  rw [List.filter_true] at h
  exact h

theorem count_ordered_unique (l : List String) (x : String) :
    (_ordered_unique l).count x = if x ∈ l then 1 else 0 := by
  by_cases hx : x ∈ l
  · rw [if_pos hx]
    exact List.count_eq_one_of_mem (nodup_ordered_unique_aux l [])
      ((mem_ordered_unique_aux l [] x).mpr ⟨hx, by simp⟩)
  · rw [if_neg hx]
    refine List.count_eq_zero.mpr ?_
    intro hmem
    exact hx ((mem_ordered_unique_aux l [] x).mp hmem).1

/-- Claim C2: for every accumulated option list (from any sequence of
additional_options calls, duplicates included), the option segment of the
rendered run command is the accumulated list filtered to the first occurrence
of each distinct option string: a subsequence of the accumulated list (so
first-seen order is kept, never reordered or merged), duplicate-free, and
containing each option of the list exactly once, later duplicates dropped. -/
theorem claim_C2_options_dedup (d : Docker) (image : String) (caa : List String) :
    d.run_fullcmd image caa
      = d._docker_exec ++ " run "
        ++ String.intercalate " " (firstOccurrences d._options)
        ++ " " ++ image ++ " " ++ String.intercalate " " caa
    ∧ List.Sublist (firstOccurrences d._options) d._options
    ∧ (firstOccurrences d._options).Nodup
    ∧ ∀ x, (firstOccurrences d._options).count x
        = if x ∈ d._options then 1 else 0 := by
  have he := ordered_unique_eq_firstOccurrences d._options
  refine ⟨?_, ?_, ?_, ?_⟩
  · rw [Docker.run_fullcmd, he]
  · rw [← he]
    exact sublist_ordered_unique_aux d._options []
  · rw [← he]
    exact nodup_ordered_unique_aux d._options []
  · intro x
    rw [← he]
    exact count_ordered_unique d._options x

/- ===================== theorems: terminal operations ===================== -/

/-- Claim C3: for every builder with an image set whose pull subprocess exits
non-zero, do_pull with ignore_errors set returns the captured (possibly
empty) stripped stdout without raising, while do_pull without it raises
SpawnedProcessError carrying that same exit code, the exact rendered command
string, the captured stdout and the captured stderr. -/
theorem claim_C3_pull_ignore_errors (d : Docker) (img : String)
    (spawn : String → ProcResult) (himg : d._image = some img)
    (hret : (spawn (d.pull_fullcmd img)).retcode ≠ 0) :
    d.do_pull spawn true = Except.ok (pyStrip (spawn (d.pull_fullcmd img)).output)
    ∧ d.do_pull spawn false
      = Except.error (DrbError.spawnedProcessError
          (spawn (d.pull_fullcmd img)).retcode (d.pull_fullcmd img)
          (spawn (d.pull_fullcmd img)).output (spawn (d.pull_fullcmd img)).error) := by
  constructor
  · simp [Docker.do_pull, himg]
  · simp [Docker.do_pull, himg, hret]

theorem claim_C3_witness :
    ((Docker.new "docker").image "alpine").do_pull
        (fun _ => ProcResult.mk "" "boom" 1) true = Except.ok ""
    ∧ ((Docker.new "docker").image "alpine").do_pull
        (fun _ => ProcResult.mk "" "boom" 1) false
      = Except.error (DrbError.spawnedProcessError 1 "docker pull alpine" "" "boom") :=
  claim_C3_pull_ignore_errors ((Docker.new "docker").image "alpine") "alpine"
    (fun _ => ProcResult.mk "" "boom" 1) rfl (by decide)

/-- Claim C5: for every builder with image and command-and-args set, do_run
renders executable, the literal run, the deduplicated options, the image and
the command tokens; it returns the stripped captured stdout when the
subprocess exits zero and raises SpawnedProcessError whenever it exits
non-zero — in particular on exit code 1 the error carries returncode 1, as
the witness instantiates. -/
theorem claim_C5_run (d : Docker) (img : String) (caa : List String)
    (spawn : String → ProcResult) (himg : d._image = some img)
    (hcaa : d._cmd_and_args = some caa) :
    d.run_fullcmd img caa
      = d._docker_exec ++ " run "
        ++ String.intercalate " " (_ordered_unique d._options)
        ++ " " ++ img ++ " " ++ String.intercalate " " caa
    ∧ ((spawn (d.run_fullcmd img caa)).retcode = 0 →
        d.do_run spawn
          = Except.ok (pyStrip (spawn (d.run_fullcmd img caa)).output))
    ∧ ((spawn (d.run_fullcmd img caa)).retcode ≠ 0 →
        d.do_run spawn
          = Except.error (DrbError.spawnedProcessError
              (spawn (d.run_fullcmd img caa)).retcode (d.run_fullcmd img caa)
              (spawn (d.run_fullcmd img caa)).output
              (spawn (d.run_fullcmd img caa)).error)) := by
  refine ⟨rfl, ?_, ?_⟩
  · intro h0
    simp [Docker.do_run, Docker._run, himg, hcaa, h0, Except.map]
  · intro hne
    simp [Docker.do_run, Docker._run, himg, hcaa, hne, Except.map]

theorem claim_C5_witness :
    (((Docker.new "docker").image "alpine").cmd_and_args ["echo", "hi"]).do_run
        (fun _ => ProcResult.mk "out" "" 1)
      = Except.error (DrbError.spawnedProcessError 1
          "docker run  alpine echo hi" "out" "") :=
  (claim_C5_run (((Docker.new "docker").image "alpine").cmd_and_args ["echo", "hi"])
    "alpine" ["echo", "hi"] (fun _ => ProcResult.mk "out" "" 1) rfl rfl).2.2 (by decide)

/-- Claim C9: the rendered pull command is a function of only the executable
and the image: two builders agreeing on those two fields have identical
do_pull behaviour whatever their option lists and command tokens; with the
image set the rendered command is exactly executable, pull, image; and with
the image unset do_pull fails with PreconditionFailed before consulting the
spawn oracle. -/
theorem claim_C9_pull_frame (spawn : String → ProcResult) (d₁ d₂ : Docker)
    (ie : Bool) (hexec : d₁._docker_exec = d₂._docker_exec)
    (himg : d₁._image = d₂._image) :
    Docker.do_pull spawn d₁ ie = Docker.do_pull spawn d₂ ie
    ∧ (∀ img, d₁._image = some img →
        d₁.pull_fullcmd img = d₁._docker_exec ++ " pull " ++ img)
    ∧ (d₁._image = none →
        Docker.do_pull spawn d₁ ie
          = Except.error (DrbError.preconditionFailed "image must be set")) := by
  refine ⟨?_, fun img _ => rfl, ?_⟩
  · unfold Docker.do_pull Docker.pull_fullcmd
    rw [hexec, himg]
  · intro hnone
    simp [Docker.do_pull, hnone]

theorem claim_C9_witness :
    (Docker.mk "docker" ["--rm"] (some "alpine") (some ["echo"])).do_pull
        (fun c => ProcResult.mk c "" 0) false
      = (Docker.mk "docker" [] (some "alpine") none).do_pull
        (fun c => ProcResult.mk c "" 0) false :=
  (claim_C9_pull_frame (fun c => ProcResult.mk c "" 0)
    (Docker.mk "docker" ["--rm"] (some "alpine") (some ["echo"]))
    (Docker.mk "docker" [] (some "alpine") none) false rfl rfl).1

/- ===================== theorems: preconditions and setters ===================== -/

/-- Claim C6: whenever any bindmount_dir validation fails — host path not
readable and executable (in particular a non-existent host path, for which
os.access is false), host path not a directory, or guest path not absolute —
the call fails with PreconditionFailed and produces no new state, so no
volume option is appended to the accumulated option list. -/
theorem claim_C6_bindmount_dir_precondition (fs : FileSystem) (d : Docker)
    (host_dir guest_dir : String) (ro : Bool)
    (hfail : fs.accessRX host_dir = false ∨ fs.isdir host_dir = false
      ∨ isabs guest_dir = false) :
    failsPrecondition (Docker.bindmount_dir fs d host_dir guest_dir ro) = true := by
  rcases hfail with h | h | h
  · simp [Docker.bindmount_dir, precondition, h, Bind.bind, Except.bind,
      failsPrecondition]
  · cases hacc : fs.accessRX host_dir <;>
      simp [Docker.bindmount_dir, precondition, h, hacc, Bind.bind, Except.bind,
        failsPrecondition]
  · cases hacc : fs.accessRX host_dir <;> cases hdir : fs.isdir host_dir <;>
      simp [Docker.bindmount_dir, precondition, h, hacc, hdir, Bind.bind,
        Except.bind, failsPrecondition]

theorem claim_C6_witness :
    failsPrecondition (Docker.bindmount_dir
      (FileSystem.mk (fun _ => false) (fun _ => false) (fun _ => false)
        (fun _ => false) (fun p => p))
      (Docker.new "docker") "/missing" "/guest" false) = true :=
  claim_C6_bindmount_dir_precondition _ _ _ _ _ (Or.inl rfl)

/-- Claim C7: for every relative (non-absolute) guest path, each of workdir,
tmpfs, bindmount_dir and bindmount_file fails with PreconditionFailed rather
than appending an option. -/
theorem claim_C7_relative_guest_fails (fs : FileSystem) (d : Docker)
    (host guest : String) (ro : Bool) (hrel : isabs guest = false) :
    failsPrecondition (d.workdir guest) = true
    ∧ failsPrecondition (d.tmpfs guest) = true
    ∧ failsPrecondition (Docker.bindmount_dir fs d host guest ro) = true
    ∧ failsPrecondition (Docker.bindmount_file fs d host guest ro) = true := by
  refine ⟨?_, ?_, ?_, ?_⟩
  · simp [Docker.workdir, precondition, hrel, Bind.bind, Except.bind,
      failsPrecondition]
  · simp [Docker.tmpfs, precondition, hrel, Bind.bind, Except.bind,
      failsPrecondition]
  · cases hacc : fs.accessRX host <;> cases hdir : fs.isdir host <;>
      simp [Docker.bindmount_dir, precondition, hrel, hacc, hdir, Bind.bind,
        Except.bind, failsPrecondition]
  · cases hacc : fs.accessR host <;> cases hfile : fs.isfile host <;>
      simp [Docker.bindmount_file, precondition, hrel, hacc, hfile, Bind.bind,
        Except.bind, failsPrecondition]

theorem claim_C7_witness :
    failsPrecondition ((Docker.new "docker").workdir "rel") = true
    ∧ failsPrecondition ((Docker.new "docker").tmpfs "rel") = true
    ∧ failsPrecondition (Docker.bindmount_dir
        (FileSystem.mk (fun _ => true) (fun _ => true) (fun _ => true)
          (fun _ => true) (fun p => p))
        (Docker.new "docker") "/h" "rel" false) = true
    ∧ failsPrecondition (Docker.bindmount_file
        (FileSystem.mk (fun _ => true) (fun _ => true) (fun _ => true)
          (fun _ => true) (fun p => p))
        (Docker.new "docker") "/h" "rel" false) = true :=
  claim_C7_relative_guest_fails
    (FileSystem.mk (fun _ => true) (fun _ => true) (fun _ => true)
      (fun _ => true) (fun p => p))
    (Docker.new "docker") "/h" "rel" false (by decide)

/-- Claim C8 counterexample: at a non-string key, env does not fail with a
distinct InvalidArgument: it fails through the same precondition mechanism as
every other check, with PreconditionFailed. -/
theorem claim_C8_counterexample :
    (Docker.new "docker").env PyValue.other (PyValue.str "v")
      = Except.error (DrbError.preconditionFailed "key must be str or unicode")
    ∧ failsInvalidArgument
        ((Docker.new "docker").env PyValue.other (PyValue.str "v")) = false :=
  ⟨rfl, rfl⟩

/-- Claim C8 as amended: env appends exactly one option assembling the
individually quoted key and value when both are string-like, and when key or
value is not string-like it fails with PreconditionFailed — the type check
goes through the same precondition mechanism as the other checks; no distinct
InvalidArgument error is raised. -/
theorem claim_C8_env (d : Docker) (k v : String) (kv vv : PyValue)
    (hbad : kv.isBasestring = false ∨ vv.isBasestring = false) :
    d.env (PyValue.str k) (PyValue.str v)
      = Except.ok (Docker.mk d._docker_exec
          (d._options ++ ["--env=" ++ pipes.quote k ++ "=" ++ pipes.quote v])
          d._image d._cmd_and_args)
    ∧ failsPrecondition (d.env kv vv) = true
    ∧ failsInvalidArgument (d.env kv vv) = false := by
  refine ⟨rfl, ?_, ?_⟩
  · cases kv with
    | other => cases vv <;> rfl
    | str ks =>
      cases vv with
      | str vs => rcases hbad with h | h <;> simp [PyValue.isBasestring] at h
      | other => rfl
  · cases kv with
    | other => cases vv <;> rfl
    | str ks =>
      cases vv with
      | str vs => rcases hbad with h | h <;> simp [PyValue.isBasestring] at h
      | other => rfl

theorem claim_C8_witness :
    (Docker.new "docker").env (PyValue.str "K") (PyValue.str "V")
      = Except.ok (Docker.mk "docker" ["--env=K=V"] none none)
    ∧ failsPrecondition ((Docker.new "docker").env PyValue.other PyValue.other) = true
    ∧ failsInvalidArgument ((Docker.new "docker").env PyValue.other PyValue.other) = false :=
  claim_C8_env (Docker.new "docker") "K" "V" PyValue.other PyValue.other (Or.inl rfl)

theorem isPrefixOf_append_self (l e : List String) : l.isPrefixOf (l ++ e) = true := by
  induction l with
  | nil => simp
  | cons a l ih => simp [List.isPrefixOf, ih]

theorem isPrefixOf_self (l : List String) : l.isPrefixOf l = true := by
  have h := isPrefixOf_append_self l []
  rwa [List.append_nil] at h

/-- Claim C10: image and cmd_and_args have last-write-wins semantics — a
second call completely replaces the stored image or token list, leaving no
trace of the earlier value — while every configuration operation (including
additional_options, env, the flags and the mounts) only ever appends to the
accumulated option list: the old option list is always a prefix of the new
one. -/
theorem claim_C10_setters (fs : FileSystem) (d d' : Docker) (i₁ i₂ : String)
    (c₁ c₂ : List String) (op : ConfigOp)
    (hop : applyOp fs d op = Except.ok d') :
    (d.image i₁).image i₂ = d.image i₂
    ∧ (d.cmd_and_args c₁).cmd_and_args c₂ = d.cmd_and_args c₂
    ∧ d._options.isPrefixOf d'._options = true := by
  refine ⟨rfl, rfl, ?_⟩
  cases op with
  | image img =>
    simp only [applyOp, Except.ok.injEq] at hop
    subst hop
    exact isPrefixOf_self d._options
  | cmd_and_args caa =>
    simp only [applyOp, Except.ok.injEq] at hop
    subst hop
    exact isPrefixOf_self d._options
  | additional_options opts =>
    simp only [applyOp, Except.ok.injEq] at hop
    subst hop
    exact isPrefixOf_append_self d._options _
  | env k v =>
    cases k with
    | other => simp [applyOp, Docker.env] at hop
    | str ks =>
      cases v with
      | other => simp [applyOp, Docker.env] at hop
      | str vs =>
        simp only [applyOp, Docker.env, Except.ok.injEq] at hop
        subst hop
        exact isPrefixOf_append_self d._options _
  | rm =>
    simp only [applyOp, Docker.rm, Except.ok.injEq] at hop
    subst hop
    exact isPrefixOf_append_self d._options _
  | interactive_and_tty =>
    simp only [applyOp, Docker.interactive_and_tty, Except.ok.injEq] at hop
    subst hop
    exact isPrefixOf_append_self d._options _
  | bindmount_dir hd gd ro =>
    cases hacc : fs.accessRX hd with
    | false =>
      simp [applyOp, Docker.bindmount_dir, precondition, hacc, Bind.bind, Except.bind] at hop
    | true =>
      cases hdir : fs.isdir hd with
      | false =>
        simp [applyOp, Docker.bindmount_dir, precondition, hacc, hdir,
          Bind.bind, Except.bind] at hop
      | true =>
        cases habs : isabs gd with
        | false =>
          simp [applyOp, Docker.bindmount_dir, precondition, hacc, hdir, habs,
            Bind.bind, Except.bind] at hop
        | true =>
          simp only [applyOp, Docker.bindmount_dir, precondition, hacc, hdir, habs,
            if_true, Bind.bind, Except.bind, Except.ok.injEq] at hop
          subst hop
          exact isPrefixOf_append_self d._options _
  | bindmount_file hf gf ro =>
    cases hacc : fs.accessR hf with
    | false =>
      simp [applyOp, Docker.bindmount_file, precondition, hacc, Bind.bind, Except.bind] at hop
    | true =>
      cases hfile : fs.isfile hf with
      | false =>
        simp [applyOp, Docker.bindmount_file, precondition, hacc, hfile,
          Bind.bind, Except.bind] at hop
      | true =>
        cases habs : isabs gf with
        | false =>
          simp [applyOp, Docker.bindmount_file, precondition, hacc, hfile, habs,
            Bind.bind, Except.bind] at hop
        | true =>
          simp only [applyOp, Docker.bindmount_file, precondition, hacc, hfile, habs,
            if_true, Bind.bind, Except.bind, Except.ok.injEq] at hop
          subst hop
          exact isPrefixOf_append_self d._options _
  | privileged =>
    simp only [applyOp, Docker.privileged, Except.ok.injEq] at hop
    subst hop
    exact isPrefixOf_append_self d._options _
  | tmpfs gd =>
    cases habs : isabs gd with
    | false =>
      simp [applyOp, Docker.tmpfs, precondition, habs, Bind.bind, Except.bind] at hop
    | true =>
      simp only [applyOp, Docker.tmpfs, precondition, habs, if_true,
        Bind.bind, Except.bind, Except.ok.injEq] at hop
      subst hop
      exact isPrefixOf_append_self d._options _
  | workdir gd =>
    cases habs : isabs gd with
    | false =>
      simp [applyOp, Docker.workdir, precondition, habs, Bind.bind, Except.bind] at hop
    | true =>
      simp only [applyOp, Docker.workdir, precondition, habs, if_true,
        Bind.bind, Except.bind, Except.ok.injEq] at hop
      subst hop
      exact isPrefixOf_append_self d._options _
  | dockerInit =>
    simp only [applyOp, Docker.dockerInit, Except.ok.injEq] at hop
    subst hop
    exact isPrefixOf_append_self d._options _

theorem claim_C10_witness :
    ((Docker.new "docker").image "a").image "b" = (Docker.new "docker").image "b"
    ∧ ((Docker.new "docker").cmd_and_args ["x"]).cmd_and_args ["y"]
        = (Docker.new "docker").cmd_and_args ["y"]
    ∧ (Docker.new "docker")._options.isPrefixOf ((Docker.new "docker").rm)._options
        = true :=
  claim_C10_setters
    (FileSystem.mk (fun _ => true) (fun _ => true) (fun _ => true)
      (fun _ => true) (fun p => p))
    (Docker.new "docker") ((Docker.new "docker").rm) "a" "b" ["x"] ["y"]
    ConfigOp.rm rfl
